import Mathlib

set_option maxHeartbeats 1000000

/-! Shallow embedding of the portfolio accounting engine of
`src/processor.py` (function `calculate_portfolio`) together with the
output data model of `src/models.py`. Python floats are modelled as
rationals; the possibly non-finite result of the external IRR solver is
modelled by `FloatVal`; an uncaught Python exception is modelled by
`Except.error`. -/

/-- Result type of the external XIRR solver as seen by its caller: a
Python float is either finite, NaN, or one of the two infinities. -/
inductive FloatVal where
  | finite : ℚ → FloatVal
  | nan : FloatVal
  | inf : FloatVal
  | neginf : FloatVal
  deriving DecidableEq, Repr

/-- Model of `np.isnan` (processor.py line 213): true on NaN only, false
on both infinities. -/
def isNanFloat : FloatVal → Bool
  | .nan => true
  | _ => false

/-- One row of the transaction DataFrame handed to `calculate_portfolio`
(the columns the function reads). `side` is the `Operacion` column;
`none` models a missing (NaN) cell, on which Python's `.lower()` raises
AttributeError. All other columns are taken as fully populated, per the
input contract of the ingestion layer. -/
structure TxRow where
  symbol : String
  date : ℕ
  side : Option String
  quantity : ℚ
  price_eur : ℚ
  cotizacion : ℚ
  fx_rate : ℚ
  divisa : String
  deriving DecidableEq, Repr

/-- Python `str.lower` as used on the `Operacion` tokens. -/
def lowerStr (s : String) : String := String.mk (s.data.map Char.toLower)

inductive OpClass where
  | buy | sell | other
  deriving DecidableEq, Repr

/-- Python's `in` on strings: `containsSub needle hay` is true when the
character list `needle` occurs contiguously anywhere in `hay`. -/
def containsSub (needle : List Char) : List Char → Bool
  | [] => needle.isPrefixOf []
  | c :: cs => needle.isPrefixOf (c :: cs) || containsSub needle cs

/-- Classification chain used by all three loops of processor.py (lines
67 and 76, 166 and 168, 195 and 198): `if 'compra' in op_type: ... elif
'venta' in op_type: ...` on the lower-cased token; Python's `in` on
strings is substring containment. -/
def classifyOp (op : String) : OpClass :=
  if containsSub "compra".data op.data then .buy
  else if containsSub "venta".data op.data then .sell
  else .other

/-- First-match lookup in an insertion-ordered association list: Python
dict read `d[k]` and membership test `k in d`. -/
def alistFind {α : Type} (d : List (String × α)) (k : String) : Option α :=
  (d.find? (fun p => p.1 == k)).map Prod.snd

/-- Python dict write `d[k] = v`: overwrite in place when the key is
present, append otherwise; insertion order is preserved. Keys are unique
in every list this is applied to, as in a Python dict. -/
def alistSet {α : Type} : List (String × α) → String → α → List (String × α)
  | [], k, v => [(k, v)]
  | p :: d, k, v => if p.1 == k then (k, v) :: d else p :: alistSet d k v

/-- Per-symbol entry of `portfolio_state` (processor.py line 54). -/
structure PosState where
  quantity : ℚ
  total_cost_eur : ℚ
  deriving DecidableEq, Repr

/-- Accumulator of the main loop of `calculate_portfolio`:
`portfolio_state`, `total_realized_pl_eur` and `cash_flows`. -/
structure LedgerState where
  positions : List (String × PosState)
  total_realized_pl_eur : ℚ
  cash_flows : List (ℕ × ℚ)
  deriving DecidableEq, Repr

def initLedger : LedgerState := ⟨[], 0, []⟩

/-- Closing threshold `1e-9` of processor.py line 91. -/
def epsClose : ℚ := 1 / 1000000000

/-- One iteration of the main loop (processor.py lines 56 to 93) on one
row. `Except.error` models an uncaught Python exception: `.lower()` on a
missing token raises AttributeError, and the division `total_cost_eur /
quantity` on a zeroed position raises — the cleanup on lines 92 and 93
stores the integer 0 in both fields, so a later sell of that symbol
evaluates `0 / 0` (ZeroDivisionError). Under the input contract
(positive quantities) a position with zero quantity arises only through
that cleanup. -/
def stepRecord (st : LedgerState) (r : TxRow) : Except Unit LedgerState :=
  match r.side with
  | none => .error ()
  | some s =>
    let op := lowerStr s
    let amount := r.quantity * r.price_eur
    match classifyOp op with
    | .buy =>
      let pos := (alistFind st.positions r.symbol).getD ⟨0, 0⟩
      let pos' : PosState := ⟨pos.quantity + r.quantity, pos.total_cost_eur + amount⟩
      .ok { st with
            positions := alistSet st.positions r.symbol pos',
            cash_flows := st.cash_flows ++ [(r.date, -amount)] }
    | .sell =>
      let st' := { st with cash_flows := st.cash_flows ++ [(r.date, amount)] }
      match alistFind st.positions r.symbol with
      | none => .ok st'
      | some pos =>
        if pos.quantity = 0 then .error ()
        else
          let avg_cost := pos.total_cost_eur / pos.quantity
          let cost_basis_sold := r.quantity * avg_cost
          let realized_pl := amount - cost_basis_sold
          let q' := pos.quantity - r.quantity
          let pos' : PosState :=
            if q' ≤ epsClose then ⟨0, 0⟩
            else ⟨q', pos.total_cost_eur - cost_basis_sold⟩
          .ok { positions := alistSet st'.positions r.symbol pos',
                total_realized_pl_eur := st'.total_realized_pl_eur + realized_pl,
                cash_flows := st'.cash_flows }
    | .other => .ok st

/-- The main loop continued from an intermediate state: a raised
exception aborts the whole function. -/
def runLedger (st : LedgerState) : List TxRow → Except Unit LedgerState
  | [] => .ok st
  | r :: rs =>
    match stepRecord st r with
    | .error e => .error e
    | .ok st' => runLedger st' rs

/-- The whole main loop over the date-sorted rows. -/
def foldLedger (rows : List TxRow) : Except Unit LedgerState :=
  runLedger initLedger rows

/-- Insertion of a row into a date-sorted list, after every row of the
same or an earlier date. -/
def insertByDate (r : TxRow) : List TxRow → List TxRow
  | [] => [r]
  | x :: xs => if x.date ≤ r.date then x :: insertByDate r xs else r :: x :: xs

/-- Model of `df.sort_values('Fecha')` (processor.py line 45): a
permutation of the rows in non-decreasing date order. pandas' default
sort kind is quicksort, which leaves the relative order of same-date
rows unspecified; this model keeps ties in input order, and no theorem
below about `calculate_portfolio` depends on the order of same-date
rows. -/
def sortByDate (rows : List TxRow) : List TxRow :=
  rows.foldl (fun acc r => insertByDate r acc) []

/-- Last row of the sorted frame carrying the symbol: the source of
`latest_prices` and `latest_fx` (`groupby('Simbolo')[...].last()`,
lines 102 and 108) and of the currency via
`df[df['Simbolo'] == symbol].iloc[-1]` (lines 120 and 121); with fully
populated columns the last non-null entry and the last row coincide. -/
def lastFor (rows : List TxRow) (sym : String) : Option TxRow :=
  (rows.filter (fun r => r.symbol == sym)).getLast?

/-- Output row model `Holding` of src/models.py lines 15 to 24. -/
structure Holding where
  symbol : String
  quantity : ℚ
  average_price : ℚ
  current_price : ℚ
  market_value : ℚ
  unrealized_pl : ℚ
  unrealized_pl_percentage : ℚ
  realized_pl : ℚ
  currency : String
  deriving DecidableEq, Repr

/-- Holding construction of processor.py lines 113 to 141 for one open
position. `last?` is the last row seen for the symbol; the defaults 0
for the price and 1 for the fx rate are the `.get(symbol, 0.0)` and
`.get(symbol, 1.0)` fallbacks of lines 116 and 117. Inside the pipeline
a position's symbol always occurs among the rows, so `last?` is `some`
there; on an absent symbol Python's `iloc[-1]` on line 120 would raise
IndexError, and the `""` currency default below is never exercised by
`calculate_portfolio`. -/
def mkHolding (last? : Option TxRow) (sym : String) (st : PosState) : Holding :=
  let avg_cost := st.total_cost_eur / st.quantity
  let current_price_raw := (last?.map TxRow.cotizacion).getD 0
  let fx_rate := (last?.map TxRow.fx_rate).getD 1
  let currency := (last?.map TxRow.divisa).getD ""
  let current_price_eur :=
    if currency ≠ "EUR" then current_price_raw * fx_rate else current_price_raw
  let market_value := st.quantity * current_price_eur
  let unrealized_pl := market_value - st.total_cost_eur
  let unrealized_pl_pct :=
    if st.total_cost_eur ≠ 0 then unrealized_pl / st.total_cost_eur * 100 else 0
  ⟨sym, st.quantity, avg_cost, current_price_raw, market_value,
   unrealized_pl, unrealized_pl_pct, 0, currency⟩

/-- Holdings loop of processor.py lines 110 to 142: one output row per
position with positive quantity, in insertion order of
`portfolio_state`; positions with `quantity <= 0` produce nothing. -/
def buildHoldings (rows : List TxRow) (positions : List (String × PosState)) :
    List Holding :=
  positions.filterMap fun p =>
    if p.2.quantity > 0 then some (mkHolding (lastFor rows p.1) p.1 p.2) else none

/-- External solver `npf.xirr` viewed abstractly: it may raise
(`Except.error`) or return any float, finite or not. -/
def Solver : Type := List (ℕ × ℚ) → Except Unit FloatVal

/-- IRR reporting policy of processor.py lines 151 to 180 together with
line 213: start from 0.0, call the solver only when `cash_flows` is
non-empty, coerce a raised solver exception to 0.0 (the bare `except`),
and finally coerce a NaN — and only a NaN, the check is `np.isnan` — to
0.0. -/
def reportIrr (solver : Solver) (cash_flows : List (ℕ × ℚ))
    (flows : List (ℕ × ℚ)) : FloatVal :=
  let irr := if cash_flows.isEmpty then FloatVal.finite 0
             else match solver flows with
                  | .error _ => FloatVal.finite 0
                  | .ok v => v
  if isNanFloat irr then FloatVal.finite 0 else irr

/-- Rebuilt cash-flow timeline of processor.py lines 160 to 173: one
loop over the sorted rows appending a signed flow per recognized record
— the buys negative, the sells positive, with no look at the ledger
state — then the synthetic terminal flow exactly when
`total_value_eur > 0`. A missing token never reaches this loop inside
the pipeline, because the main loop has already raised on it. -/
def irrFlowStep (acc : List (ℕ × ℚ)) (r : TxRow) : List (ℕ × ℚ) :=
  match r.side with
  | none => acc
  | some s =>
    let amount := r.quantity * r.price_eur
    match classifyOp (lowerStr s) with
    | .buy => acc ++ [(r.date, -amount)]
    | .sell => acc ++ [(r.date, amount)]
    | .other => acc

def irrFlows (rows : List TxRow) (today : ℕ) (total_value : ℚ) : List (ℕ × ℚ) :=
  let base := rows.foldl irrFlowStep []
  if total_value > 0 then base ++ [(today, total_value)] else base

/-- Python `ignored_ops` update of processor.py lines 202 to 204: set
the counter to 0 when the key is new, then add one; keys are unique as
in a Python dict. -/
def bumpTally : List (String × ℕ) → String → List (String × ℕ)
  | [], k => [(k, 1)]
  | p :: d, k => if p.1 == k then (p.1, p.2 + 1) :: d else p :: bumpTally d k

/-- One row of the diagnostic second pass of processor.py lines 185 to
204: a row with a missing (NaN) token is skipped by the `pd.isna` guard
of line 189; a row classified buy or sell falls through; anything else —
the empty token included — is tallied under its lower-cased token. -/
def tallyStep (d : List (String × ℕ)) (r : TxRow) : List (String × ℕ) :=
  match r.side with
  | none => d
  | some s =>
    let op := lowerStr s
    match classifyOp op with
    | .buy => d
    | .sell => d
    | .other => bumpTally d op

/-- The whole diagnostic tally pass. -/
def tallyIgnored (rows : List TxRow) : List (String × ℕ) :=
  rows.foldl tallyStep []

/-- Count stored in the tally for a token, 0 when absent. -/
def tallyLookup (d : List (String × ℕ)) (k : String) : ℕ :=
  ((d.find? (fun p => p.1 == k)).map Prod.snd).getD 0

/-- Output model `PortfolioSummary` of src/models.py lines 26 to 32.
The model declares no `debug_info` field: the `debug_info=...` keyword
passed at processor.py line 215 is an extra argument that pydantic's
default extra-fields policy silently drops, so the diagnostics never
reach the caller (src/app.py line 101 reads `summary.debug_info`, an
attribute this model does not have). -/
structure PortfolioSummary where
  total_value_eur : ℚ
  total_invested_eur : ℚ
  total_unrealized_pl_eur : ℚ
  total_realized_pl_eur : ℚ
  irr : FloatVal
  holdings : List Holding
  deriving DecidableEq, Repr

/-- The whole `calculate_portfolio` of processor.py lines 37 to 216,
parameterized by the external solver and by `date.today()`. The
diagnostic tally of lines 185 to 204 is computed and then lost, because
the `PortfolioSummary` model has no field to carry it. -/
def calculate_portfolio (solver : Solver) (today : ℕ) (rows : List TxRow) :
    Except Unit PortfolioSummary :=
  let df := sortByDate rows
  match foldLedger df with
  | .error e => .error e
  | .ok ledger =>
    let holdings := buildHoldings df ledger.positions
    let total_value_eur := (holdings.map Holding.market_value).sum
    let total_unrealized_pl_eur := (holdings.map Holding.unrealized_pl).sum
    let total_invested_eur :=
      ((ledger.positions.filter (fun p => p.2.quantity > 0)).map
        (fun p => p.2.total_cost_eur)).sum
    let cash_flows := ledger.cash_flows ++ holdings.map (fun h => (today, h.market_value))
    let irr := reportIrr solver cash_flows (irrFlows df today total_value_eur)
    let _debug_info := (tallyIgnored df, df.length)
    .ok ⟨total_value_eur, total_invested_eur, total_unrealized_pl_eur,
         ledger.total_realized_pl_eur, irr, holdings⟩

/-! Helper lemmas on the association-list model of Python dicts. -/

theorem alistFind_mem {α : Type} {d : List (String × α)} {k : String} {v : α}
    (h : alistFind d k = some v) : (k, v) ∈ d := by
  induction d with
  | nil => simp [alistFind] at h
  | cons p d ih =>
    by_cases hk : p.1 = k
    · unfold alistFind at h
      rw [List.find?_cons_of_pos _ (by simp [hk])] at h
      simp only [Option.map_some'] at h
      obtain rfl : p.2 = v := Option.some.inj h
      obtain ⟨a, b⟩ := p
      simp only at hk
      subst hk
      exact List.mem_cons_self _ _
    · unfold alistFind at h
      rw [List.find?_cons_of_neg _ (by simp [hk])] at h
      exact List.mem_cons_of_mem _ (ih h)

theorem mem_alistSet {α : Type} {d : List (String × α)} {k : String} {v : α}
    {q : String × α} (h : q ∈ alistSet d k v) : q = (k, v) ∨ q ∈ d := by
  induction d with
  | nil =>
    simp [alistSet] at h
    exact Or.inl h
  | cons p d ih =>
    by_cases hk : p.1 = k
    · have b1 : (p.1 == k) = true := by simp [hk]
      simp only [alistSet, b1, if_true] at h
      rcases List.mem_cons.mp h with h1 | h1
      · exact Or.inl h1
      · exact Or.inr (List.mem_cons_of_mem _ h1)
    · have b1 : (p.1 == k) = false := by simp [hk]
      simp only [alistSet, b1, Bool.false_eq_true, if_false] at h
      rcases List.mem_cons.mp h with h1 | h1
      · exact Or.inr (h1 ▸ List.mem_cons_self _ _)
      · rcases ih h1 with h2 | h2
        · exact Or.inl h2
        · exact Or.inr (List.mem_cons_of_mem _ h2)

theorem alistFind_alistSet_self {α : Type} (d : List (String × α)) (k : String)
    (v : α) : alistFind (alistSet d k v) k = some v := by
  induction d with
  | nil => simp [alistSet, alistFind]
  | cons q d ih =>
    by_cases hk : q.1 = k
    · have b1 : (q.1 == k) = true := by simp [hk]
      simp only [alistSet, b1, if_true]
      unfold alistFind
      rw [List.find?_cons_of_pos _ (by simp)]
      simp
    · have b1 : (q.1 == k) = false := by simp [hk]
      simp only [alistSet, b1, Bool.false_eq_true, if_false]
      unfold alistFind
      rw [List.find?_cons_of_neg _ (by simp [hk])]
      exact ih

/-- Incrementing a key changes exactly that key's count. -/
theorem tallyLookup_bumpTally (d : List (String × ℕ)) (k tok : String) :
    tallyLookup (bumpTally d k) tok =
      tallyLookup d tok + (if tok = k then 1 else 0) := by
  induction d with
  | nil =>
    by_cases h : tok = k
    · subst h
      unfold bumpTally tallyLookup
      rw [List.find?_cons_of_pos _ (by simp)]
      simp
    · unfold bumpTally tallyLookup
      rw [List.find?_cons_of_neg _ (by simp; exact fun e => h e.symm)]
      simp [h]
  | cons q d ih =>
    by_cases hqk : q.1 = k
    · have b1 : (q.1 == k) = true := by simp [hqk]
      by_cases hqt : q.1 = tok
      · have hkt : tok = k := by rw [← hqt, hqk]
        simp only [bumpTally, b1, if_true]
        unfold tallyLookup
        rw [List.find?_cons_of_pos _ (by simp [hqt]),
            List.find?_cons_of_pos _ (by simp [hqt])]
        simp [hkt]
      · have hkt : ¬ tok = k := fun e => hqt (by rw [hqk, ← e])
        simp only [bumpTally, b1, if_true]
        unfold tallyLookup
        rw [List.find?_cons_of_neg _ (by simp [hqt]),
            List.find?_cons_of_neg _ (by simp [hqt])]
        simp [hkt]
    · have b1 : (q.1 == k) = false := by simp [hqk]
      by_cases hqt : q.1 = tok
      · have hkt : ¬ tok = k := fun e => hqk (by rw [hqt, e])
        simp only [bumpTally, b1, Bool.false_eq_true, if_false]
        unfold tallyLookup
        rw [List.find?_cons_of_pos _ (by simp [hqt]),
            List.find?_cons_of_pos _ (by simp [hqt])]
        simp [hkt]
      · simp only [bumpTally, b1, Bool.false_eq_true, if_false]
        unfold tallyLookup
        rw [List.find?_cons_of_neg _ (by simp [hqt]),
            List.find?_cons_of_neg _ (by simp [hqt])]
        exact ih

/-! Concrete rows used in the concrete evaluations below. -/

/-- Buy 10 at 100 EUR on day 0 (2023-01-01 of the spec scenario). -/
def rowBuyJan : TxRow := ⟨"A", 0, some "Compra", 10, 100, 110, 1, "EUR"⟩

/-- Buy 10 at 120 EUR on day 1 (2023-06-01 of the spec scenario). -/
def rowBuyJun : TxRow := ⟨"A", 1, some "Compra", 10, 120, 130, 1, "EUR"⟩

/-- Sell 5 at 150 EUR on day 2 (2024-01-01 of the spec scenario); being
the chronologically last row of the symbol, it also carries the latest
price 150, fx 1.0 and currency EUR. -/
def rowSellJan : TxRow := ⟨"A", 2, some "Venta", 5, 150, 150, 1, "EUR"⟩

/-- Buy 10 at 100 on day 0. -/
def rowBuyTen : TxRow := ⟨"A", 0, some "Compra", 10, 100, 100, 1, "EUR"⟩

/-- Sell the full 10 at 100 on day 1: closes the position. -/
def rowSellAll : TxRow := ⟨"A", 1, some "Venta", 10, 100, 100, 1, "EUR"⟩

/-- Sell 5 more on day 2, on the already-zeroed position. -/
def rowSellMore : TxRow := ⟨"A", 2, some "Venta", 5, 100, 100, 1, "EUR"⟩

/-- Row with an unrecognized side token. -/
def rowDividendo : TxRow := ⟨"A", 0, some "Dividendo", 1, 10, 10, 1, "EUR"⟩

/-- Row with a different unrecognized side token. -/
def rowSplit : TxRow := ⟨"A", 0, some "Split", 1, 10, 10, 1, "EUR"⟩

/-- Row with an empty side token. -/
def rowEmptyTok : TxRow := ⟨"B", 0, some "", 1, 10, 10, 1, "EUR"⟩

/-- Row with a missing (NaN) side token. -/
def rowNoTok : TxRow := ⟨"B", 0, none, 1, 10, 10, 1, "EUR"⟩

/-- Row whose side token contains "compra" as a proper substring. -/
def rowRecompra : TxRow := ⟨"A", 0, some "Recompra", 5, 10, 10, 1, "EUR"⟩

/-- Solver that always raises, as `npf.xirr` (an attribute that
numpy-financial does not export) does at call time. -/
def solverRaise : Solver := fun _ => .error ()

/-- Solver returning positive infinity. -/
def solverInf : Solver := fun _ => .ok .inf

/-- Solver returning NaN. -/
def solverNan : Solver := fun _ => .ok .nan

/-! Claim theorems. -/

/-- C1: on the scenario [Buy 10 @ 100 on day 0, Buy 10 @ 120 on day 1,
Sell 5 @ 150 on day 2] of one symbol with latest price 150, currency
EUR, fx 1.0, the engine produces average cost 110 at the time of the
sell, post-sell position quantity 15 with accumulated cost 1650,
realized P&L 200 as the portfolio total, market value 2250 and
unrealized P&L 600, whatever the external solver does. -/
theorem c1_scenario_values :
    (∃ mid, foldLedger [rowBuyJan, rowBuyJun] = .ok mid ∧
      ∃ p, alistFind mid.positions "A" = some p ∧
        p.total_cost_eur / p.quantity = 110) ∧
    (∃ stFin, foldLedger [rowBuyJan, rowBuyJun, rowSellJan] = .ok stFin ∧
      alistFind stFin.positions "A" = some ⟨15, 1650⟩ ∧
      stFin.total_realized_pl_eur = 200) ∧
    ∀ solver : Solver,
      (calculate_portfolio solver 3 [rowBuyJan, rowBuyJun, rowSellJan]).map
        (fun S => (S.total_realized_pl_eur, S.total_value_eur,
                   S.total_unrealized_pl_eur,
                   S.holdings.map (fun h =>
                     (h.quantity, h.market_value, h.unrealized_pl)))) =
      .ok (200, 2250, 600, [(15, 2250, 600)]) := by
  have hb : classifyOp (lowerStr "Compra") = OpClass.buy := by decide
  have hv : classifyOp (lowerStr "Venta") = OpClass.sell := by decide
  refine ⟨⟨⟨[("A", ⟨20, 2200⟩)], 0, [(0, -1000), (1, -1200)]⟩, ?_, ⟨20, 2200⟩, ?_, ?_⟩,
          ⟨⟨[("A", ⟨15, 1650⟩)], 200, [(0, -1000), (1, -1200), (2, 750)]⟩, ?_, ?_, ?_⟩,
          ?_⟩
  · simp [foldLedger, runLedger, stepRecord, hb, rowBuyJan, rowBuyJun,
          alistFind, alistSet, initLedger]
    norm_num
  · simp [alistFind]
  · norm_num
  · simp [foldLedger, runLedger, stepRecord, hb, hv, rowBuyJan, rowBuyJun,
          rowSellJan, alistFind, alistSet, initLedger, epsClose]
    norm_num
  · simp [alistFind]
  · norm_num
  · intro solver
    simp [calculate_portfolio, sortByDate, insertByDate, foldLedger, runLedger,
          stepRecord, hb, hv, rowBuyJan, rowBuyJun, rowSellJan, alistFind,
          alistSet, initLedger, epsClose, buildHoldings, mkHolding, lastFor,
          reportIrr, isNanFloat, irrFlows, irrFlowStep, tallyIgnored,
          tallyStep, bumpTally, Except.map]
    norm_num [List.filterMap_cons, List.filterMap_nil, List.find?]

/-- C2 counterexample: on [Buy 10 @ 100, Sell 10 @ 100, Sell 5 @ 100]
the second sell meets an existing position whose quantity was zeroed by
the cleanup, the average-cost division is NOT guarded, and the whole
computation fails instead of skipping the realized-P&L computation. -/
theorem c2_cex_sell_on_zeroed_position_fails :
    foldLedger [rowBuyTen, rowSellAll, rowSellMore] = .error () ∧
    calculate_portfolio solverRaise 3 [rowBuyTen, rowSellAll, rowSellMore] =
      .error () := by
  have hb : classifyOp (lowerStr "Compra") = OpClass.buy := by decide
  have hv : classifyOp (lowerStr "Venta") = OpClass.sell := by decide
  constructor
  · simp [foldLedger, runLedger, stepRecord, hb, hv, rowBuyTen, rowSellAll,
          rowSellMore, alistFind, alistSet, initLedger, epsClose]
  · simp [calculate_portfolio, sortByDate, insertByDate, foldLedger, runLedger,
          stepRecord, hb, hv, rowBuyTen, rowSellAll, rowSellMore, alistFind,
          alistSet, initLedger, epsClose]

/-- C2 (amended): a Sell for a symbol with no existing position appends
its cash flow but leaves all position state and the running total
realized P&L unchanged; a Sell for a symbol whose existing position has
quantity_held equal to zero reaches the unguarded average-cost division
and the computation fails (raises), rather than skipping. -/
theorem c2_sell_degenerate_cases :
    ∀ (st : LedgerState) (r : TxRow) (s : String),
      r.side = some s → classifyOp (lowerStr s) = .sell →
      (alistFind st.positions r.symbol = none →
        stepRecord st r =
          .ok { st with cash_flows :=
                  st.cash_flows ++ [(r.date, r.quantity * r.price_eur)] }) ∧
      (∀ p, alistFind st.positions r.symbol = some p → p.quantity = 0 →
        stepRecord st r = .error ()) := by
  intro st r s hs hc
  constructor
  · intro hnone
    simp [stepRecord, hs, hc, hnone]
  · intro p hp hq
    simp [stepRecord, hs, hc, hp, hq]

/-- Witness for the amended C2 theorem at concrete inputs: the no-position
case on the empty ledger and the zero-quantity case on a zeroed
position. -/
theorem c2_sell_degenerate_cases_witness :
    (rowSellMore.side = some "Venta" ∧
     classifyOp (lowerStr "Venta") = OpClass.sell ∧
     alistFind initLedger.positions rowSellMore.symbol = none ∧
     stepRecord initLedger rowSellMore =
       .ok { initLedger with cash_flows :=
               initLedger.cash_flows ++
                 [(rowSellMore.date, rowSellMore.quantity * rowSellMore.price_eur)] }) ∧
    (alistFind (⟨[("A", ⟨0, 0⟩)], 0, []⟩ : LedgerState).positions
        rowSellMore.symbol = some ⟨0, 0⟩ ∧
     stepRecord ⟨[("A", ⟨0, 0⟩)], 0, []⟩ rowSellMore = .error ()) := by
  refine ⟨⟨rfl, by decide, by simp [alistFind, initLedger], ?_⟩, by simp [alistFind, rowSellMore], ?_⟩
  · exact (c2_sell_degenerate_cases initLedger rowSellMore "Venta" rfl
      (by decide)).1 (by simp [alistFind, initLedger])
  · exact (c2_sell_degenerate_cases ⟨[("A", ⟨0, 0⟩)], 0, []⟩ rowSellMore "Venta" rfl
      (by decide)).2 ⟨0, 0⟩ (by simp [alistFind, rowSellMore]) rfl

/-- C3 counterexample: a solver that returns positive infinity on a
one-buy history makes the reported IRR infinite — the final check is
`np.isnan` only, so a non-finite, non-NaN rate is not reported as 0.0. -/
theorem c3_cex_infinite_rate_reported :
    (calculate_portfolio solverInf 1 [rowBuyTen]).map PortfolioSummary.irr =
      .ok FloatVal.inf ∧ FloatVal.inf ≠ FloatVal.finite 0 := by
  have hb : classifyOp (lowerStr "Compra") = OpClass.buy := by decide
  constructor
  · simp [calculate_portfolio, sortByDate, insertByDate, foldLedger, runLedger,
          stepRecord, hb, rowBuyTen, alistFind, alistSet, initLedger,
          buildHoldings, mkHolding, lastFor, reportIrr, isNanFloat, solverInf,
          irrFlows, irrFlowStep, tallyIgnored, tallyStep, bumpTally, Except.map]
  · simp

/-- C3 (amended): the reported rate is 0.0 whenever the solver raises or
returns NaN, and for the empty transaction list it is exactly 0.0;
whether the whole computation fails never depends on the solver, so no
failure from the IRR path propagates; but an infinite solver result
passes the NaN-only check and is reported unchanged. -/
theorem c3_irr_error_policy :
    (∀ (solver : Solver) (cfs flows : List (ℕ × ℚ)),
       solver flows = .error () → reportIrr solver cfs flows = .finite 0) ∧
    (∀ (solver : Solver) (cfs flows : List (ℕ × ℚ)),
       solver flows = .ok .nan → reportIrr solver cfs flows = .finite 0) ∧
    (∀ (solver : Solver) (today : ℕ),
       (calculate_portfolio solver today []).map PortfolioSummary.irr =
         .ok (.finite 0)) ∧
    (∀ (s1 s2 : Solver) (today : ℕ) (rows : List TxRow),
       (calculate_portfolio s1 today rows = .error ()) ↔
       (calculate_portfolio s2 today rows = .error ())) := by
  refine ⟨?_, ?_, ?_, ?_⟩
  · intro solver cfs flows h
    by_cases he : cfs.isEmpty <;> simp [reportIrr, he, h, isNanFloat]
  · intro solver cfs flows h
    by_cases he : cfs.isEmpty <;> simp [reportIrr, he, h, isNanFloat]
  · intro solver today
    simp [calculate_portfolio, sortByDate, foldLedger, runLedger, initLedger,
          buildHoldings, reportIrr, isNanFloat, irrFlows, Except.map]
  · intro s1 s2 today rows
    cases h : foldLedger (sortByDate rows) with
    | error e => cases e; simp [calculate_portfolio, h]
    | ok st => simp [calculate_portfolio, h]

/-- Witness for the amended C3 theorem: the raising solver and the NaN
solver both give a reported rate of 0.0 on concrete flow lists. -/
theorem c3_irr_error_policy_witness :
    (solverRaise [] = .error () ∧ reportIrr solverRaise [] [] = .finite 0) ∧
    (solverNan [] = .ok .nan ∧ reportIrr solverNan [] [] = .finite 0) :=
  ⟨⟨rfl, c3_irr_error_policy.1 solverRaise [] [] rfl⟩,
   ⟨rfl, c3_irr_error_policy.2.1 solverNan [] [] rfl⟩⟩

/-- C4: every position with positive quantity yields a holding row whose
market value is quantity times the latest native price, fx-converted
exactly when the last-seen currency is not EUR; unrealized P&L is market
value minus accumulated cost; the percentage is guarded on zero cost;
and a symbol all of whose position entries have non-positive quantity
yields no holding row at all. -/
theorem c4_valuation_rows :
    (∀ (rows : List TxRow) (positions : List (String × PosState))
       (sym : String) (st : PosState) (lr : TxRow),
       (sym, st) ∈ positions → st.quantity > 0 → lastFor rows sym = some lr →
       ∃ h, h ∈ buildHoldings rows positions ∧ h.symbol = sym ∧
         h.market_value = st.quantity *
           (if lr.divisa ≠ "EUR" then lr.cotizacion * lr.fx_rate
            else lr.cotizacion) ∧
         h.unrealized_pl = h.market_value - st.total_cost_eur ∧
         h.unrealized_pl_percentage =
           (if st.total_cost_eur ≠ 0
            then h.unrealized_pl / st.total_cost_eur * 100 else 0)) ∧
    (∀ (rows : List TxRow) (positions : List (String × PosState)) (sym : String),
       (∀ st, (sym, st) ∈ positions → st.quantity ≤ 0) →
       ∀ h, h ∈ buildHoldings rows positions → h.symbol ≠ sym) := by
  constructor
  · intro rows positions sym st lr hmem hq hlast
    refine ⟨mkHolding (lastFor rows sym) sym st, ?_, ?_, ?_, ?_, ?_⟩
    · unfold buildHoldings
      exact List.mem_filterMap.mpr ⟨(sym, st), hmem, by simp [hq]⟩
    · simp [mkHolding]
    · simp [mkHolding, hlast]
    · simp [mkHolding, hlast]
    · simp [mkHolding, hlast]
  · intro rows positions sym hall h hmem
    unfold buildHoldings at hmem
    rcases List.mem_filterMap.mp hmem with ⟨p, hp, hf⟩
    by_cases hq : p.2.quantity > 0
    · simp only [hq, if_true, Option.some.injEq] at hf
      intro hsym
      have hp1 : p.1 = sym := by rw [← hsym, ← hf]; simp [mkHolding]
      have hmem' : (sym, p.2) ∈ positions := by
        obtain ⟨a, b⟩ := p
        simp only at hp1
        rw [hp1] at hp
        exact hp
      exact absurd hq (not_lt.mpr (hall p.2 hmem'))
    · simp [hq] at hf

/-- Witness for C4 at concrete inputs: a position of 10 units at cost
1000 with last row `rowBuyTen` produces its holding row, and a zeroed
position produces no row for its symbol. -/
theorem c4_valuation_rows_witness :
    ((("A", (⟨10, 1000⟩ : PosState)) ∈ [("A", (⟨10, 1000⟩ : PosState))]) ∧
     ((⟨10, 1000⟩ : PosState).quantity > 0) ∧
     lastFor [rowBuyTen] "A" = some rowBuyTen ∧
     (∃ h, h ∈ buildHoldings [rowBuyTen] [("A", (⟨10, 1000⟩ : PosState))] ∧
        h.symbol = "A" ∧
        h.market_value = (⟨10, 1000⟩ : PosState).quantity *
          (if rowBuyTen.divisa ≠ "EUR" then rowBuyTen.cotizacion * rowBuyTen.fx_rate
           else rowBuyTen.cotizacion) ∧
        h.unrealized_pl = h.market_value - (⟨10, 1000⟩ : PosState).total_cost_eur ∧
        h.unrealized_pl_percentage =
          (if (⟨10, 1000⟩ : PosState).total_cost_eur ≠ 0
           then h.unrealized_pl / (⟨10, 1000⟩ : PosState).total_cost_eur * 100
           else 0))) ∧
    ((∀ st, ("A", st) ∈ [("A", (⟨0, 0⟩ : PosState))] → st.quantity ≤ 0) ∧
     (∀ h, h ∈ buildHoldings [rowBuyTen] [("A", (⟨0, 0⟩ : PosState))] →
        h.symbol ≠ "A")) := by
  refine ⟨⟨by simp, by norm_num, by simp [lastFor, rowBuyTen], ?_⟩, ?_, ?_⟩
  · exact c4_valuation_rows.1 [rowBuyTen] [("A", ⟨10, 1000⟩)] "A" ⟨10, 1000⟩
      rowBuyTen (by simp) (by norm_num) (by simp [lastFor, rowBuyTen])
  · intro st hst
    simp at hst
    rw [hst]
  · exact c4_valuation_rows.2 [rowBuyTen] [("A", ⟨0, 0⟩)] "A"
      (by intro st hst; simp at hst; rw [hst])

/-- Flow of one record according to the spec's words (section 4.3 step
1): a Buy gives a negative flow, a Sell a positive one, anything else
nothing; the ledger state is never consulted. Stated from the spec for
comparison with the loop `irrFlowStep` of the source. -/
def specFlowOf (r : TxRow) : Option (ℕ × ℚ) :=
  match r.side with
  | none => none
  | some s =>
    match classifyOp (lowerStr s) with
    | .buy => some (r.date, -(r.quantity * r.price_eur))
    | .sell => some (r.date, r.quantity * r.price_eur)
    | .other => none

/-- The appending loop of lines 160 to 169 computes the filterMap of the
per-record flow. -/
theorem irrFlows_foldl_eq (rows : List TxRow) :
    ∀ acc : List (ℕ × ℚ),
      rows.foldl irrFlowStep acc = acc ++ rows.filterMap specFlowOf := by
  induction rows with
  | nil => intro acc; simp
  | cons r rows ih =>
    intro acc
    rw [List.foldl_cons, ih]
    cases hs : r.side with
    | none => simp [irrFlowStep, specFlowOf, hs]
    | some s =>
      cases hc : classifyOp (lowerStr s) <;>
        simp [irrFlowStep, specFlowOf, hs, hc]

/-- C5: on rows whose side tokens are all present, the IRR timeline is
exactly one signed flow per recognized record — Buys negative, Sells
positive, position state never consulted (so sells with no prior
position contribute too), unrecognized rows contributing nothing — plus
exactly one terminal flow (today, total_value) appended iff
total_value > 0. -/
theorem c5_flow_timeline :
    ∀ (rows : List TxRow) (today : ℕ) (tv : ℚ),
      (∀ r ∈ rows, r.side ≠ none) →
      irrFlows rows today tv =
        rows.filterMap specFlowOf ++
          (if tv > 0 then [(today, tv)] else []) := by
  intro rows today tv _
  unfold irrFlows
  rw [irrFlows_foldl_eq rows []]
  by_cases h : tv > 0 <;> simp [h]

/-- Witness for C5: a buy, a sell with no prior position, and an
unrecognized row, with a positive terminal value. -/
theorem c5_flow_timeline_witness :
    (∀ r ∈ [rowSellAll, rowBuyTen, rowDividendo], r.side ≠ none) ∧
    irrFlows [rowSellAll, rowBuyTen, rowDividendo] 9 100 =
      [rowSellAll, rowBuyTen, rowDividendo].filterMap specFlowOf ++
        (if (100 : ℚ) > 0 then [(9, 100)] else []) := by
  constructor
  · decide
  · exact c5_flow_timeline [rowSellAll, rowBuyTen, rowDividendo] 9 100 (by decide)

/-- C6: a ledger step that succeeds keeps every position quantity
non-negative (given a non-negative record quantity and non-negative
quantities before the step), and a sell that lands at or below the 1e-9
threshold leaves the symbol's position with quantity and accumulated
cost both exactly zero. -/
theorem c6_nonneg_and_lockstep :
    ∀ (st : LedgerState) (r : TxRow) (st' : LedgerState),
      stepRecord st r = .ok st' →
      0 ≤ r.quantity →
      (∀ p ∈ st.positions, 0 ≤ p.2.quantity) →
      ((∀ p ∈ st'.positions, 0 ≤ p.2.quantity) ∧
       (∀ (s : String) (pos : PosState),
          r.side = some s → classifyOp (lowerStr s) = .sell →
          alistFind st.positions r.symbol = some pos →
          pos.quantity - r.quantity ≤ epsClose →
          alistFind st'.positions r.symbol = some ⟨0, 0⟩)) := by
  intro st r st' hstep hq hpos
  cases hs : r.side with
  | none => simp [stepRecord, hs] at hstep
  | some s =>
    cases hc : classifyOp (lowerStr s) with
    | buy =>
      simp only [stepRecord, hs, hc, Except.ok.injEq] at hstep
      subst hstep
      constructor
      · intro p hp
        rcases mem_alistSet hp with h1 | h1
        · subst h1
          dsimp only
          cases hf : alistFind st.positions r.symbol with
          | none => simpa [hf] using hq
          | some q0 =>
            have h2 := hpos _ (alistFind_mem hf)
            simp only [hf, Option.getD_some]
            exact add_nonneg h2 hq
        · exact hpos p h1
      · intro s2 pos hs2 hc2 hf2 hle
        obtain rfl := Option.some.inj hs2
        rw [hc] at hc2
        exact OpClass.noConfusion hc2
    | sell =>
      simp only [stepRecord, hs, hc] at hstep
      cases hf : alistFind st.positions r.symbol with
      | none =>
        simp only [hf, Except.ok.injEq] at hstep
        subst hstep
        refine ⟨fun p hp => hpos p hp, ?_⟩
        intro s2 pos hs2 hc2 hf2 hle
        exact Option.noConfusion hf2
      | some pos0 =>
        simp only [hf] at hstep
        by_cases hz : pos0.quantity = 0
        · rw [if_pos hz] at hstep
          exact Except.noConfusion hstep
        · rw [if_neg hz] at hstep
          simp only [Except.ok.injEq] at hstep
          subst hstep
          by_cases hcl : pos0.quantity - r.quantity ≤ epsClose
          · constructor
            · intro p hp
              simp only [if_pos hcl] at hp
              rcases mem_alistSet hp with h1 | h1
              · subst h1; norm_num
              · exact hpos p h1
            · intro s2 pos hs2 hc2 hf2 hle
              simp only [if_pos hcl]
              exact alistFind_alistSet_self _ _ _
          · constructor
            · intro p hp
              simp only [if_neg hcl] at hp
              rcases mem_alistSet hp with h1 | h1
              · subst h1
                dsimp only
                have h2 : epsClose < pos0.quantity - r.quantity := not_le.mp hcl
                have h3 : (0 : ℚ) < epsClose := by norm_num [epsClose]
                linarith
              · exact hpos p h1
            · intro s2 pos hs2 hc2 hf2 hle
              obtain rfl : pos0 = pos := Option.some.inj hf2
              exact absurd hle hcl
    | other =>
      simp only [stepRecord, hs, hc, Except.ok.injEq] at hstep
      subst hstep
      refine ⟨hpos, ?_⟩
      intro s2 pos hs2 hc2 hf2 hle
      obtain rfl := Option.some.inj hs2
      rw [hc] at hc2
      exact OpClass.noConfusion hc2

/-- Witness for C6: selling the full quantity of a 10-unit position
succeeds, keeps quantities non-negative, and leaves the position at
exactly (0, 0). -/
theorem c6_nonneg_and_lockstep_witness :
    (stepRecord ⟨[("A", ⟨10, 1000⟩)], 0, []⟩ rowSellAll =
        .ok ⟨[("A", ⟨0, 0⟩)], 0, [(1, 1000)]⟩ ∧
     (0 : ℚ) ≤ rowSellAll.quantity ∧
     (∀ p ∈ (⟨[("A", ⟨10, 1000⟩)], 0, []⟩ : LedgerState).positions,
        0 ≤ p.2.quantity)) ∧
    ((∀ p ∈ (⟨[("A", ⟨0, 0⟩)], 0, [(1, 1000)]⟩ : LedgerState).positions,
        0 ≤ p.2.quantity) ∧
     (∀ (s : String) (pos : PosState),
        rowSellAll.side = some s → classifyOp (lowerStr s) = .sell →
        alistFind (⟨[("A", ⟨10, 1000⟩)], 0, []⟩ : LedgerState).positions
            rowSellAll.symbol = some pos →
        pos.quantity - rowSellAll.quantity ≤ epsClose →
        alistFind (⟨[("A", ⟨0, 0⟩)], 0, [(1, 1000)]⟩ : LedgerState).positions
            rowSellAll.symbol = some ⟨0, 0⟩)) := by
  have hv : classifyOp (lowerStr "Venta") = OpClass.sell := by decide
  have hstep : stepRecord ⟨[("A", ⟨10, 1000⟩)], 0, []⟩ rowSellAll =
      .ok ⟨[("A", ⟨0, 0⟩)], 0, [(1, 1000)]⟩ := by
    simp [stepRecord, hv, rowSellAll, alistFind, alistSet, epsClose]
    norm_num
  have hq : (0 : ℚ) ≤ rowSellAll.quantity := by norm_num [rowSellAll]
  have hpos : ∀ p ∈ (⟨[("A", ⟨10, 1000⟩)], 0, []⟩ : LedgerState).positions,
      0 ≤ p.2.quantity := by
    intro p hp
    simp at hp
    subst hp
    norm_num
  exact ⟨⟨hstep, hq, hpos⟩,
    c6_nonneg_and_lockstep ⟨[("A", ⟨10, 1000⟩)], 0, []⟩ rowSellAll
      ⟨[("A", ⟨0, 0⟩)], 0, [(1, 1000)]⟩ hstep hq hpos⟩

/-- C7 counterexample: a record with the empty side token IS tallied
(under the key "") by the diagnostic pass, and a record with a missing
(NaN) side token makes the ledger fold raise instead of being silently
skipped. -/
theorem c7_cex_empty_and_missing_tokens :
    tallyIgnored [rowEmptyTok] = [("", 1)] ∧
    stepRecord initLedger rowNoTok = .error () := by
  exact ⟨by decide, rfl⟩

/-- The tally pass counts, per token, exactly the rows carrying that
lower-cased unrecognized token, whatever the starting accumulator. -/
theorem tallyLookup_foldl (rows : List TxRow) :
    ∀ (d : List (String × ℕ)) (tok : String),
      tallyLookup (rows.foldl tallyStep d) tok =
        tallyLookup d tok +
          (rows.filter (fun r =>
            match r.side with
            | none => false
            | some s => (lowerStr s == tok) &&
                        (classifyOp (lowerStr s) == OpClass.other))).length := by
  have hbo : (OpClass.buy == OpClass.other) = false := by decide
  have hso : (OpClass.sell == OpClass.other) = false := by decide
  have hoo : (OpClass.other == OpClass.other) = true := by decide
  induction rows with
  | nil => intro d tok; simp
  | cons r rows ih =>
    intro d tok
    rw [List.foldl_cons, ih]
    cases hs : r.side with
    | none => simp [tallyStep, hs]
    | some s =>
      cases hc : classifyOp (lowerStr s) with
      | buy => simp [tallyStep, hs, hc, hbo]
      | sell => simp [tallyStep, hs, hc, hso]
      | other =>
        by_cases ht : lowerStr s = tok
        · subst ht
          simp [tallyStep, hs, hc, hoo, tallyLookup_bumpTally]
          omega
        · have ht' : (lowerStr s == tok) = false := by simp [ht]
          have ht2 : ¬ tok = lowerStr s := fun e => ht e.symm
          simp [tallyStep, hs, hc, hoo, tallyLookup_bumpTally, ht', ht2]

/-- C7 (amended): a record whose present side token maps to neither Buy
nor Sell leaves the whole ledger state unchanged and is tallied exactly
once per occurrence under its lower-cased token — the empty token
included; a record with a missing side token is skipped by the tally
pass (it contributes to no count) but makes the ledger fold raise
rather than being silently skipped. -/
theorem c7_unrecognized_and_missing :
    (∀ (st : LedgerState) (r : TxRow) (s : String),
       r.side = some s → classifyOp (lowerStr s) = .other →
       stepRecord st r = .ok st) ∧
    (∀ (st : LedgerState) (r : TxRow), r.side = none →
       stepRecord st r = .error ()) ∧
    (∀ (rows : List TxRow) (tok : String),
       tallyLookup (tallyIgnored rows) tok =
         (rows.filter (fun r =>
           match r.side with
           | none => false
           | some s => (lowerStr s == tok) &&
                       (classifyOp (lowerStr s) == OpClass.other))).length) := by
  refine ⟨?_, ?_, ?_⟩
  · intro st r s hs hc
    simp [stepRecord, hs, hc]
  · intro st r hs
    simp [stepRecord, hs]
  · intro rows tok
    have h := tallyLookup_foldl rows [] tok
    simpa [tallyIgnored, tallyLookup] using h

/-- Witness for the amended C7 theorem: an unrecognized token is a
ledger no-op, and a missing token raises. -/
theorem c7_unrecognized_and_missing_witness :
    (rowDividendo.side = some "Dividendo" ∧
     classifyOp (lowerStr "Dividendo") = OpClass.other ∧
     stepRecord initLedger rowDividendo = .ok initLedger) ∧
    (rowNoTok.side = none ∧
     stepRecord initLedger rowNoTok = .error ()) :=
  ⟨⟨rfl, by decide,
    c7_unrecognized_and_missing.1 initLedger rowDividendo "Dividendo" rfl (by decide)⟩,
   ⟨rfl, c7_unrecognized_and_missing.2.1 initLedger rowNoTok rfl⟩⟩

/-- C9 (code bug): the processor computes the diagnostic tally, but the
`PortfolioSummary` model of src/models.py has no `debug_info` field, so
the summary handed back carries no diagnostics at all: two inputs with
different unrecognized-token tallies produce identical summaries. -/
theorem c9_diagnostics_dropped :
    tallyIgnored [rowDividendo] = [("dividendo", 1)] ∧
    tallyIgnored [rowSplit] = [("split", 1)] ∧
    calculate_portfolio solverRaise 0 [rowDividendo] =
      calculate_portfolio solverRaise 0 [rowSplit] := by
  have hd : classifyOp (lowerStr "Dividendo") = OpClass.other := by decide
  have hsp : classifyOp (lowerStr "Split") = OpClass.other := by decide
  refine ⟨by decide, by decide, ?_⟩
  have e1 : calculate_portfolio solverRaise 0 [rowDividendo] =
      .ok ⟨0, 0, 0, 0, .finite 0, []⟩ := by
    simp [calculate_portfolio, sortByDate, insertByDate, foldLedger, runLedger,
          stepRecord, hd, rowDividendo, initLedger, buildHoldings, reportIrr,
          isNanFloat, irrFlows, irrFlowStep, Except.map]
  have e2 : calculate_portfolio solverRaise 0 [rowSplit] =
      .ok ⟨0, 0, 0, 0, .finite 0, []⟩ := by
    simp [calculate_portfolio, sortByDate, insertByDate, foldLedger, runLedger,
          stepRecord, hsp, rowSplit, initLedger, buildHoldings, reportIrr,
          isNanFloat, irrFlows, irrFlowStep, Except.map]
  rw [e1, e2]

/-- C10: a record is processed as a Buy exactly when its lower-cased
token contains "compra" anywhere, and as a Sell exactly when it does not
contain "compra" but contains "venta"; in particular "Recompra" is
processed as a Buy by the ledger and never tallied as unrecognized. -/
theorem c10_substring_side_classification :
    (∀ s : String, classifyOp (lowerStr s) = .buy ↔
       containsSub "compra".data (lowerStr s).data = true) ∧
    (∀ s : String, classifyOp (lowerStr s) = .sell ↔
       (containsSub "compra".data (lowerStr s).data = false ∧
        containsSub "venta".data (lowerStr s).data = true)) ∧
    stepRecord initLedger rowRecompra = .ok ⟨[("A", ⟨5, 50⟩)], 0, [(0, -50)]⟩ ∧
    tallyIgnored [rowRecompra] = [] := by
  have hr : classifyOp (lowerStr "Recompra") = OpClass.buy := by decide
  refine ⟨?_, ?_, ?_, by decide⟩
  · intro s
    unfold classifyOp
    cases h1 : containsSub "compra".data (lowerStr s).data
    · cases h2 : containsSub "venta".data (lowerStr s).data <;> simp [h1, h2]
    · simp [h1]
  · intro s
    unfold classifyOp
    cases h1 : containsSub "compra".data (lowerStr s).data
    · cases h2 : containsSub "venta".data (lowerStr s).data <;> simp [h1, h2]
    · simp [h1]
  · simp [stepRecord, hr, rowRecompra, initLedger, alistFind, alistSet]
    norm_num
